import Mathlib

/-!
Verification of the gogarin fleet-automation program (Go) against its
natural-language specification.

The Go source is shallowly embedded: pure functions become Lean functions,
the stateful action loops become explicit state passing with oracles standing
for remote-call results, machine integers become `Int`, and timestamps become
`Rat` (nanoseconds).  The float64 Euclidean distance of `lib.Distance` is
represented by the squared distance over `Int`: the real square root is
strictly monotone, so the strict `<` comparison performed by the source on
distances coincides with strict `<` on squared distances.

Go loop-variable semantics of the repository's era: `for _, v := range xs`
declares ONE variable `v` reused across iterations, so `&v` aliases the same
cell on every iteration.  Where the source takes the address of the loop
variable (`lib.NearestWaypoint`), the embedding models that cell explicitly.
-/

namespace Gogarin

/-- Waypoint, from `model.Waypoint`: the fields read by the core
(symbol, type, coordinates, trait symbols). -/
structure Waypoint where
  symbol : String
  type : String
  x : Int
  y : Int
  traits : List String
deriving Repr, DecidableEq

/-- Coordinate, from `lib.Coordinate`. -/
structure Coordinate where
  x : Int
  y : Int
deriving Repr, DecidableEq

/-- Squared Euclidean distance between two coordinates; stands for
`lib.Distance` (which returns `math.Sqrt` of this quantity): strict
comparisons of the two agree because the square root is strictly monotone. -/
def Distance2 (c1 c2 : Coordinate) : Int :=
  (c1.x - c2.x) ^ 2 + (c1.y - c2.y) ^ 2

/-- State of the loop inside `lib.NearestWaypoint`: `ptrSet` says whether the
`nearestWaypoint` pointer has been set (it can only ever point at the loop
variable), `nearestDistance` is the tracked minimum (squared), and `loopVar`
is the current content of the single range loop variable that the pointer
aliases (`none` before the first iteration). -/
structure NearestLoopState where
  ptrSet : Bool
  nearestDistance : Int
  loopVar : Option Waypoint
deriving Repr, DecidableEq

/-- One iteration of the loop in `lib.NearestWaypoint`.  The loop variable
cell is overwritten with the current element on every iteration, whether or
not a new minimum was found: `nearestWaypoint = &waypoint` aliases it. -/
def nearestLoopStep (current : Waypoint) (st : NearestLoopState) (w : Waypoint) :
    NearestLoopState :=
  if st.ptrSet = false ∨
      Distance2 ⟨current.x, current.y⟩ ⟨w.x, w.y⟩ < st.nearestDistance then
    { ptrSet := true,
      nearestDistance := Distance2 ⟨current.x, current.y⟩ ⟨w.x, w.y⟩,
      loopVar := some w }
  else
    { st with loopVar := some w }

/-- `lib.NearestWaypoint`: fold the loop over the candidate list, then return
the pointed-to waypoint, or `none` (the `errors.New` failure) when the
pointer was never set (empty candidate list). -/
def NearestWaypoint (current : Waypoint) (waypoints : List Waypoint) :
    Option Waypoint :=
  if (waypoints.foldl (nearestLoopStep current) ⟨false, 0, none⟩).ptrSet then
    (waypoints.foldl (nearestLoopStep current) ⟨false, 0, none⟩).loopVar
  else none

/-- Concrete reference waypoint used to evaluate `NearestWaypoint`. -/
def curW : Waypoint := ⟨"WP-CUR", "PLANET", 0, 0, []⟩

/-- Concrete candidate at squared distance 1 from `curW`. -/
def wpA : Waypoint := ⟨"WP-A", "PLANET", 0, 1, []⟩

/-- Concrete candidate at squared distance 100 from `curW`. -/
def wpB : Waypoint := ⟨"WP-B", "PLANET", 0, 10, []⟩

/-- `lib.Contains`: linear scan comparing each element against `v`. -/
def Contains (elems : List String) (v : String) : Bool :=
  elems.any (fun s => v == s)

/-- One inventory line, from `model.ShipCargoItem` (fields the core reads). -/
structure ShipCargoItem where
  symbol : String
  units : Int
deriving Repr, DecidableEq

/-- Cargo manifest, from `model.ShipCargo`. -/
structure ShipCargo where
  capacity : Int
  units : Int
  inventory : List ShipCargoItem
deriving Repr, DecidableEq

/-- Navigation state, from `model.ShipNav`: current waypoint, route
destination and arrival time (`Rat` nanoseconds), and docking status. -/
structure ShipNavState where
  waypointSymbol : String
  destinationSymbol : String
  arrival : Rat
  status : String
deriving Repr, DecidableEq

/-
Dispatcher decision logic for role EXCAVATOR (the five `if` blocks of the
command loop in `main`).
-/

/-- The five actions the EXCAVATOR arm of the command loop can spawn. -/
inductive ExcavatorAction where
  | sell
  | dock
  | navigateToMarketplace
  | extract
  | navigateToField
deriving Repr, DecidableEq

/-- `ShipBot.IsFullOfCargo`: `Units >= Capacity`. -/
def IsFullOfCargo (cargo : ShipCargo) : Bool :=
  cargo.capacity ≤ cargo.units

/-- The EXCAVATOR arm of the command loop as a function of the results of
the five predicate evaluations: each of the five `if` blocks contributes its
spawned action when its condition holds, in program order.  `cargoFull`
stands for the `IsFullOfCargo()` result, `atMarketplace` for
`IsAtWaypointWithTrait("MARKETPLACE")`, `docked` for
`Nav.Status == "DOCKED"`, `atAsteroidField` for
`IsAtWaypointOfType("ASTEROID_FIELD")`. -/
def excavatorDecisionList (cargoFull atMarketplace docked atAsteroidField : Bool) :
    List ExcavatorAction :=
  (if cargoFull && atMarketplace && docked then [ExcavatorAction.sell] else []) ++
  (if cargoFull && atMarketplace && !docked then [ExcavatorAction.dock] else []) ++
  (if cargoFull && !atMarketplace then [ExcavatorAction.navigateToMarketplace] else []) ++
  (if !cargoFull && atAsteroidField then [ExcavatorAction.extract] else []) ++
  (if !cargoFull && !atAsteroidField then [ExcavatorAction.navigateToField] else [])

/-- The EXCAVATOR decision on a ship snapshot: cargo fullness is computed
from the cargo manifest, dockedness from the nav status string. -/
def dispatchExcavator (cargo : ShipCargo) (status : String)
    (atMarketplace atAsteroidField : Bool) : List ExcavatorAction :=
  excavatorDecisionList (IsFullOfCargo cargo) atMarketplace (status == "DOCKED")
    atAsteroidField

/-- Modelled from the spec: the ordered predicate table of spec section 4.3
(first match wins): rows 1 to 3 when cargo is full, rows 4 to 5 otherwise.
Used only as the comparison point for the dispatcher's decision logic. -/
def behaviorTableSpec (cargoFull atMarketplace docked atAsteroidField : Bool) :
    ExcavatorAction :=
  if cargoFull then
    if atMarketplace then
      if docked then ExcavatorAction.sell else ExcavatorAction.dock
    else ExcavatorAction.navigateToMarketplace
  else
    if atAsteroidField then ExcavatorAction.extract
    else ExcavatorAction.navigateToField

/-
Throttle (`api.Throttle`).  The whole body of `Wait` runs under the mutex,
so concurrent callers serialize into a total order; one `Wait` execution is
a sequential event.  `idle` is the (nonnegative, by clock monotonicity) time
between the previous admission stamp and this caller's `time.Now()` reading;
`slack` is any extra delay from `time.Sleep` overshooting or from stamping
after the sleep.  Durations are exact rationals in nanoseconds (the float64
division of the source is idealized; the repository configures R = 2, where
the division is exact).
-/

/-- `timeToWait` computed in `Throttle.Wait`: one second (10^9 ns) divided by
`MaxRequestsPerSecond`. -/
def timeToWait (maxRequestsPerSecond : Nat) : Rat :=
  (1000000000 : Rat) / maxRequestsPerSecond

/-- Environment of one `Wait` execution: scheduling latitude the caller
cannot control. -/
structure WaitEnv where
  idle : Rat
  slack : Rat
deriving Repr, DecidableEq

/-- Admission stamp produced by one `Throttle.Wait` execution: the caller
reads `now`, computes `timeSinceLastRequest`, sleeps the remainder of
`timeToWait` if any, and stamps the (post-sleep) current time as
`LastRequestTime`. -/
def waitStamp (r : Nat) (last : Rat) (e : WaitEnv) : Rat :=
  if (last + e.idle) - last < timeToWait r then
    (last + e.idle) + (timeToWait r - ((last + e.idle) - last)) + e.slack
  else
    (last + e.idle) + e.slack

/-- The sequence of admission stamps produced by a serialized sequence of
`Throttle.Wait` executions starting from `LastRequestTime = last`. -/
def admissionTimes (r : Nat) (last : Rat) : List WaitEnv → List Rat
  | [] => []
  | e :: es => waitStamp r last e :: admissionTimes r (waitStamp r last e) es

/-
Extract loop (`ShipBot.ExtractResources` and `ShipBot.WaitUntilCooldown`).
-/

/-- `ShipBot.WaitUntilCooldown`: if the expiration is before now, skip the
wait; otherwise sleep until the expiration.  Returns the time at which
control continues. -/
def WaitUntilCooldown (expiration now : Rat) : Rat :=
  if expiration < now then now else expiration

/-- Result of one `client.ExtractResources` call: failure, or a response
carrying the new cargo manifest and the new cooldown expiration. -/
inductive ExtractResult where
  | fail
  | ok (cargo : ShipCargo) (cooldownExpiration : Rat)
deriving Repr, DecidableEq

/-- Why the extract loop stopped. -/
inductive ExtractExit where
  | cargoFull
  | callFailed
deriving Repr, DecidableEq

/-- Trace of one `ExtractResources` run: `events` records, per extract call,
the time the call was issued and the cooldown expiration in force; `final`
is the cargo at loop end; `outcome` is `none` when the supplied response
list (the fuel) ran out with the loop still going. -/
structure ExtractRun where
  events : List (Rat × Rat)
  final : ShipCargo
  outcome : Option ExtractExit
deriving Repr, DecidableEq

/-- `ShipBot.ExtractResources`: loop while not `IsFullOfCargo`; each
iteration waits out the cooldown, issues the extract call, and on success
installs the response's cargo and cooldown; the loop stops on the first
failed call or when cargo becomes full, then reports back. -/
def ExtractResources (resps : List ExtractResult) (cargo : ShipCargo)
    (expiration now : Rat) : ExtractRun :=
  if cargo.capacity ≤ cargo.units then ⟨[], cargo, some ExtractExit.cargoFull⟩
  else
    match resps with
    | [] => ⟨[], cargo, none⟩
    | ExtractResult.fail :: _ =>
        ⟨[(WaitUntilCooldown expiration now, expiration)], cargo,
          some ExtractExit.callFailed⟩
    | ExtractResult.ok c e :: rest =>
        let r := ExtractResources rest c e (WaitUntilCooldown expiration now)
        ⟨(WaitUntilCooldown expiration now, expiration) :: r.events, r.final,
          r.outcome⟩

/-- The remote side's documented cargo invariant on an extract response:
the returned manifest never overfills (`units <= capacity`). -/
def respCargoInvariant : ExtractResult → Bool
  | ExtractResult.fail => true
  | ExtractResult.ok c _ => decide (c.units ≤ c.capacity)

/-
Sell loop (`ShipBot.SellCargo`).  The oracle maps the index of a sell call
to its result.  Log messages are modelled because the priority and
non-priority branches differ only in them.
-/

/-- Result of one `client.SellCargo` call. -/
inductive SellResult where
  | fail
  | ok (cargo : ShipCargo) (credits : Int)

/-- The log lines the sell loop emits that distinguish its branches. -/
inductive LogMsg where
  | sellingPriority (symbol : String)
  | sellingNonPriority (symbol : String)
  | errorSelling
  | cargoEmpty
deriving Repr, DecidableEq

/-- Mutable state threaded through the sell loop: the ship's cargo, the
agent's credits, the number of sell calls made so far, and the log. -/
structure SellState where
  cargo : ShipCargo
  credits : Int
  calls : Nat
  log : List LogMsg
deriving Repr, DecidableEq

/-- The inner `for ... range` of `SellCargo`, over the inventory snapshot
taken at inner-loop entry: for each line, branch on membership in the
priority list, issue one sell call for the full unit count, and on success
install the response's cargo and credits; `break` on the first failure.
The two branches are the source's two branches: they differ only in the log
line emitted. -/
def SellPass (priorities : List String) (oracle : Nat → SellResult) :
    List ShipCargoItem → SellState → SellState
  | [], st => st
  | good :: rest, st =>
    if Contains priorities good.symbol then
      match oracle st.calls with
      | SellResult.fail =>
          { st with calls := st.calls + 1,
                    log := st.log ++
                      [LogMsg.sellingPriority good.symbol, LogMsg.errorSelling] }
      | SellResult.ok cargo credits =>
          SellPass priorities oracle rest
            { cargo := cargo, credits := credits, calls := st.calls + 1,
              log := st.log ++ [LogMsg.sellingPriority good.symbol] }
    else
      match oracle st.calls with
      | SellResult.fail =>
          { st with calls := st.calls + 1,
                    log := st.log ++
                      [LogMsg.sellingNonPriority good.symbol, LogMsg.errorSelling] }
      | SellResult.ok cargo credits =>
          SellPass priorities oracle rest
            { cargo := cargo, credits := credits, calls := st.calls + 1,
              log := st.log ++ [LogMsg.sellingNonPriority good.symbol] }

/-- `ShipBot.SellCargo`: the outer `for` loop.  While `cargo.units > 0`, run
one inner pass over the current inventory (an inner-loop `break` on failure
returns here and the outer loop continues); when `cargo.units == 0`, log and
exit, after which the ship reports back (`sbCh <- *sb`).  `fuel` bounds the
number of outer iterations modelled; the returned Bool says whether the
report-back was reached within that bound. -/
def SellCargo (priorities : List String) (oracle : Nat → SellResult) :
    Nat → SellState → SellState × Bool
  | 0, st => (st, false)
  | fuel + 1, st =>
    if 0 < st.cargo.units then
      SellCargo priorities oracle fuel (SellPass priorities oracle st.cargo.inventory st)
    else
      ({ st with log := st.log ++ [LogMsg.cargoEmpty] }, true)

/-- The non-log observables of a sell-loop state. -/
def SellObservable (st : SellState) : ShipCargo × Int × Nat :=
  (st.cargo, st.credits, st.calls)

/-- Concrete cargo for exercising the sell loop: 5 of 10 units filled, one
inventory line. -/
def sellBugCargo : ShipCargo := ⟨10, 5, [⟨"IRON", 5⟩]⟩

/-- A sell oracle on which every call fails. -/
def sellFailOracle : Nat → SellResult := fun _ => SellResult.fail

/-- Concrete sell-loop entry state built on `sellBugCargo`. -/
def sellBugState : SellState := ⟨sellBugCargo, 0, 0, []⟩

/-
ShipBot state and the actions that mutate it (`main.go`).
-/

/-- The mutable state of one ShipBot: the static priority list plus the
ship/agent fields the actions assign (`Nav`, `Fuel`, `Cargo`, the agent's
credits, and the probed cooldown). -/
structure ShipBot where
  priorities : List String
  nav : ShipNavState
  fuel : Int
  cargo : ShipCargo
  credits : Int
  cooldownExpiration : Rat

/-- `NewShipBot`: the composite literal sets only client, logger, ship and
agent; the `priorities` field is left unset, so it holds the zero value (the
empty list models the nil slice). -/
def NewShipBot (nav : ShipNavState) (fuel : Int) (cargo : ShipCargo)
    (credits : Int) (cooldownExpiration : Rat) : ShipBot :=
  { priorities := []
    nav := nav
    fuel := fuel
    cargo := cargo
    credits := credits
    cooldownExpiration := cooldownExpiration }

/-- `ShipBot.DockShip`: the dock call's response is an `Option` (nil on
error).  On error the source logs and then dereferences the nil response
(`sb.ship.Nav = *nav`), a panic that kills the action before any channel
send: modelled as `none`.  On success the nav is installed and the ship is
sent back on the dispatcher channel: modelled as `some` of the final state. -/
def DockShip (resp : Option ShipNavState) (sb : ShipBot) : Option ShipBot :=
  match resp with
  | none => none
  | some nav => some { sb with nav := nav }

/-- Apply one `SellCargo` action to a ShipBot: the loop runs on the bot's
own (never assigned, hence empty) priority list; its final cargo and agent
credits are written back. -/
def applySellAction (oracle : Nat → SellResult) (fuel : Nat) (sb : ShipBot) :
    ShipBot :=
  { sb with
      cargo := (SellCargo sb.priorities oracle fuel ⟨sb.cargo, sb.credits, 0, []⟩).1.cargo
      credits := (SellCargo sb.priorities oracle fuel ⟨sb.cargo, sb.credits, 0, []⟩).1.credits }

/-- Apply one `ExtractResources` action to a ShipBot: final cargo and the
last installed cooldown expiration are written back. -/
def applyExtractAction (resps : List ExtractResult) (finalCooldown : Rat)
    (sb : ShipBot) : ShipBot :=
  { sb with
      cargo := (ExtractResources resps sb.cargo sb.cooldownExpiration 0).final
      cooldownExpiration := finalCooldown }

/-- Every ShipBot the program ever holds: created by `NewShipBot`, then
mutated only by the field assignments of the action functions — dock
installs a nav, navigate installs fuel and nav, extract installs cargo and
cooldown, sell installs cargo and credits, and the startup fan-out installs
a probed cooldown.  No assignment anywhere touches `priorities`. -/
inductive ReachableShipBot : ShipBot → Prop where
  | new (nav : ShipNavState) (fuel : Int) (cargo : ShipCargo) (credits : Int)
      (cd : Rat) : ReachableShipBot (NewShipBot nav fuel cargo credits cd)
  | dock {sb : ShipBot} (nav : ShipNavState) : ReachableShipBot sb →
      ReachableShipBot { sb with nav := nav }
  | navigate {sb : ShipBot} (nav : ShipNavState) (fuel : Int) :
      ReachableShipBot sb → ReachableShipBot { sb with nav := nav, fuel := fuel }
  | sellAction {sb : ShipBot} (oracle : Nat → SellResult) (fuel : Nat) :
      ReachableShipBot sb → ReachableShipBot (applySellAction oracle fuel sb)
  | extractAction {sb : ShipBot} (resps : List ExtractResult) (cd : Rat) :
      ReachableShipBot sb → ReachableShipBot (applyExtractAction resps cd sb)
  | probeCooldown {sb : ShipBot} (cd : Rat) : ReachableShipBot sb →
      ReachableShipBot { sb with cooldownExpiration := cd }

/-- Concrete nav state: at WP-A, arrived (arrival time 0). -/
def navAtA : ShipNavState := ⟨"WP-A", "WP-A", 0, "IN_ORBIT"⟩

/-- Concrete ShipBot used to evaluate `DockShip` on a failed call. -/
def dockBot0 : ShipBot := NewShipBot navAtA 100 sellBugCargo 0 0

/-
Requisition protocol (`ShipBot.InitiateRequisitionProtocol`,
`ShipBot.FindWaypointsByTrait`, `ShipBot.NavigateShip`).
-/

/-- `ShipBot.FindWaypointsByTrait`: filter the system's waypoints to those
carrying the trait. -/
def FindWaypointsByTrait (waypoints : List Waypoint) (trait : String) :
    List Waypoint :=
  waypoints.filter (fun w => w.traits.any (fun t => t == trait))

/-- How an `InitiateRequisitionProtocol` run ends: a panic (which, unrecovered
in its goroutine, terminates the whole process), or completion after visiting
the listed shipyard waypoints in order. -/
inductive RequisitionOutcome where
  | panicked (msg : String)
  | completed (visited : List String)
deriving Repr, DecidableEq

/-- `ShipBot.InitiateRequisitionProtocol`: find the SHIPYARD-trait waypoints
of the current system; if there are none, panic (hard stop); otherwise visit
each sequentially via `NavigateShip`. -/
def InitiateRequisitionProtocol (waypoints : List Waypoint) : RequisitionOutcome :=
  if (FindWaypointsByTrait waypoints "SHIPYARD").length = 0 then
    RequisitionOutcome.panicked "no shipyards found. Not yet handled."
  else
    RequisitionOutcome.completed
      ((FindWaypointsByTrait waypoints "SHIPYARD").map Waypoint.symbol)

/-- Externally visible steps of one `ShipBot.NavigateShip` call. -/
inductive NavEvent where
  | waitArrival
  | navigateCall (target : String)
deriving Repr, DecidableEq

/-- `ShipBot.NavigateShip` as the sequence of waits and calls it performs:
return immediately if already at the target and the route arrival is past;
if still in transit, wait for arrival and, when the transit is to the target
itself, return without a call; otherwise issue the navigate call (the
response is discarded: no nav update and no wait follow it). -/
def NavigateShip (nav : ShipNavState) (now : Rat) (waypointSymbol : String) :
    List NavEvent :=
  if nav.waypointSymbol = waypointSymbol ∧ nav.arrival < now then []
  else if now < nav.arrival then
    if nav.destinationSymbol = waypointSymbol then [NavEvent.waitArrival]
    else [NavEvent.waitArrival, NavEvent.navigateCall waypointSymbol]
  else [NavEvent.navigateCall waypointSymbol]

/-- Auxiliary: a loop step always leaves the pointer set. -/
theorem nearestLoopStep_ptrSet (current : Waypoint) (st : NearestLoopState)
    (w : Waypoint) : (nearestLoopStep current st w).ptrSet = true := by
  unfold nearestLoopStep
  split
  · rfl
  · rename_i h
    push_neg at h
    simpa using h.1

/-- Auxiliary: after folding a non-empty list, the loop-variable cell holds
the LAST element of the list, independent of the starting state. -/
theorem nearestLoop_foldl_loopVar (current : Waypoint) :
    ∀ (ws : List Waypoint) (st : NearestLoopState), ws ≠ [] →
      (ws.foldl (nearestLoopStep current) st).loopVar = ws.getLast? := by
  intro ws
  induction ws with
  | nil => intro st h; exact absurd rfl h
  | cons w ws ih =>
    intro st _
    cases ws with
    | nil =>
      simp only [List.foldl_cons, List.foldl_nil, List.getLast?_singleton]
      unfold nearestLoopStep
      split <;> rfl
    | cons b l =>
      rw [List.foldl_cons, ih _ (List.cons_ne_nil b l), List.getLast?_cons_cons]

/-- Auxiliary: after folding a non-empty list the pointer is set. -/
theorem nearestLoop_foldl_ptrSet (current : Waypoint) :
    ∀ (ws : List Waypoint) (st : NearestLoopState), ws ≠ [] →
      (ws.foldl (nearestLoopStep current) st).ptrSet = true := by
  intro ws
  induction ws with
  | nil => intro st h; exact absurd rfl h
  | cons w ws ih =>
    intro st _
    cases ws with
    | nil => simpa using nearestLoopStep_ptrSet current st w
    | cons b l =>
      rw [List.foldl_cons]
      exact ih _ (List.cons_ne_nil b l)

/-- The actual input/output behaviour of `lib.NearestWaypoint`: on a
non-empty candidate list it returns the last candidate (the loop variable
aliased by the returned pointer), and on the empty list it fails. -/
theorem nearestWaypoint_eq_getLast (current : Waypoint) (ws : List Waypoint) :
    NearestWaypoint current ws = ws.getLast? := by
  by_cases h : ws = []
  · subst h; rfl
  · unfold NearestWaypoint
    rw [if_pos (nearestLoop_foldl_ptrSet current ws _ h)]
    exact nearestLoop_foldl_loopVar current ws _ h

/-- Claim C1 (code bug): with reference `curW` and candidates `[wpA, wpB]`,
`wpA` is strictly nearer by Euclidean distance, and the two candidates are
distinct, yet `lib.NearestWaypoint` returns `wpB` — the returned pointer
aliases the range loop variable, which after the loop holds the last
candidate, so the claimed minimal-distance result does not hold. -/
theorem C1_nearestWaypoint_returns_last_not_nearest :
    NearestWaypoint curW [wpA, wpB] = some wpB ∧
    Distance2 ⟨curW.x, curW.y⟩ ⟨wpA.x, wpA.y⟩ <
      Distance2 ⟨curW.x, curW.y⟩ ⟨wpB.x, wpB.y⟩ ∧
    wpA ≠ wpB := by
  decide

/-- Auxiliary: a single sell pass under an always-failing oracle leaves the
cargo untouched (the empty priority list sends every line to the
non-priority branch, whose first call fails and breaks the inner loop). -/
theorem sellPass_failOracle_cargo (goods : List ShipCargoItem) (st : SellState) :
    (SellPass [] sellFailOracle goods st).cargo = st.cargo := by
  cases goods with
  | nil => rfl
  | cons g rest => simp [SellPass, Contains, sellFailOracle]

/-- Auxiliary: under an always-failing oracle, a sell loop entered with
positive cargo units never reaches the report-back, however many outer
iterations run. -/
theorem sellCargo_failOracle_no_report (fuel : Nat) :
    ∀ st : SellState, 0 < st.cargo.units →
      (SellCargo [] sellFailOracle fuel st).2 = false := by
  induction fuel with
  | zero => intro st _; rfl
  | succ n ih =>
    intro st h
    rw [SellCargo, if_pos h]
    apply ih
    rw [sellPass_failOracle_cargo]
    exact h

/-- Claim C2 (code bug): entering `SellCargo` with 5 units of IRON aboard
and a server on which every sell call fails, the `break` exits only the
inner `range` loop, so the outer loop re-enters the pass and retries the
same inventory line: the loop never ends (the report-back is never reached
for any number of outer iterations), and after two outer iterations the log
shows the IRON line attempted twice — contradicting "the remaining lines
are aborted and the loop ends" and "a failed sell call never causes a line
to be retried". -/
theorem C2_sell_failure_retries_lines :
    (∀ fuel : Nat, (SellCargo [] sellFailOracle fuel sellBugState).2 = false) ∧
    (SellCargo [] sellFailOracle 2 sellBugState).1.log =
      [LogMsg.sellingNonPriority "IRON", LogMsg.errorSelling,
       LogMsg.sellingNonPriority "IRON", LogMsg.errorSelling] := by
  constructor
  · intro fuel
    exact sellCargo_failOracle_no_report fuel sellBugState (by decide)
  · decide

/-- Claim C3 (code bug): when the dock call fails, `DockShip` logs the error
and then executes `sb.ship.Nav = *nav` on the nil response — a panic that
ends the action with no send on the dispatcher channel (`none`); the
successful call, by contrast, installs the nav and reports back. -/
theorem C3_dock_failure_crashes_without_report :
    DockShip none dockBot0 = none ∧
    DockShip (some navAtA) dockBot0 = some { dockBot0 with nav := navAtA } :=
  ⟨rfl, rfl⟩

/-- Claim C4 (confirmed): for every combination of the four booleans the
five `if` blocks of the EXCAVATOR arm spawn exactly one action, the one the
ordered predicate table of spec section 4.3 selects; and the four scenario
cases of spec section 8 hold on concrete ship snapshots. -/
theorem C4_excavator_decision_table :
    (∀ cargoFull atMarketplace docked atAsteroidField : Bool,
      excavatorDecisionList cargoFull atMarketplace docked atAsteroidField =
        [behaviorTableSpec cargoFull atMarketplace docked atAsteroidField]) ∧
    dispatchExcavator ⟨40, 40, []⟩ "DOCKED" true false = [ExcavatorAction.sell] ∧
    dispatchExcavator ⟨40, 40, []⟩ "IN_ORBIT" true false = [ExcavatorAction.dock] ∧
    dispatchExcavator ⟨40, 0, []⟩ "IN_ORBIT" false true = [ExcavatorAction.extract] ∧
    dispatchExcavator ⟨40, 0, []⟩ "IN_ORBIT" false false =
      [ExcavatorAction.navigateToField] := by
  refine ⟨by decide, by decide, by decide, by decide, by decide⟩

/-- Claim C7 counterexample: a ship sitting at WP-A (arrival in the past)
told to navigate to WP-B issues the navigate call and performs no arrival
wait at all afterwards — the response is discarded — so the claim's case
(3), "then waits for the resulting arrival before the next waypoint is
processed", is false at this input. -/
theorem C7_counterexample_no_wait_after_call :
    NavigateShip navAtA 1 "WP-B" = [NavEvent.navigateCall "WP-B"] ∧
    NavEvent.waitArrival ∉ NavigateShip navAtA 1 "WP-B" := by
  decide

/-- Claim C7 as amended: cases (1) and (2) are as claimed — no call and no
wait when already at the target with the arrival past, only a wait when
already en route to the target — and in the remaining cases the ship waits
out an existing transit (if any), issues the navigate call, and returns
immediately: a navigate call is always the last event, never followed by a
wait for the resulting arrival. -/
theorem C7_navigateShip_cases (nav : ShipNavState) (now : Rat) (target : String) :
    (nav.waypointSymbol = target ∧ nav.arrival < now →
      NavigateShip nav now target = []) ∧
    (¬(nav.waypointSymbol = target ∧ nav.arrival < now) → now < nav.arrival →
      nav.destinationSymbol = target →
      NavigateShip nav now target = [NavEvent.waitArrival]) ∧
    (¬(nav.waypointSymbol = target ∧ nav.arrival < now) → now < nav.arrival →
      nav.destinationSymbol ≠ target →
      NavigateShip nav now target =
        [NavEvent.waitArrival, NavEvent.navigateCall target]) ∧
    (¬(nav.waypointSymbol = target ∧ nav.arrival < now) → ¬(now < nav.arrival) →
      NavigateShip nav now target = [NavEvent.navigateCall target]) ∧
    (NavEvent.navigateCall target ∈ NavigateShip nav now target →
      (NavigateShip nav now target).getLast? =
        some (NavEvent.navigateCall target)) := by
  unfold NavigateShip
  refine ⟨fun h => by rw [if_pos h],
    fun h1 h2 h3 => by rw [if_neg h1, if_pos h2, if_pos h3],
    fun h1 h2 h3 => by rw [if_neg h1, if_pos h2, if_neg h3],
    fun h1 h2 => by rw [if_neg h1, if_neg h2], ?_⟩
  split
  · intro h
    cases h
  · split
    · split
      · intro h
        simp at h
      · intro _
        rfl
    · intro _
      rfl

/-- Witness for C7: the already-arrived case applied to a concrete ship. -/
theorem C7_navigateShip_cases_witness :
    NavigateShip navAtA 1 "WP-A" = [] :=
  (C7_navigateShip_cases navAtA 1 "WP-A").1 (by decide)

/-- Claim C8 (confirmed): if no waypoint of the current system carries the
SHIPYARD trait, `InitiateRequisitionProtocol` panics — an unrecovered
goroutine panic that terminates the whole process, with no retry and no
continuation into the fleet loop. -/
theorem C8_requisition_zero_shipyards (waypoints : List Waypoint)
    (h : ∀ w ∈ waypoints, "SHIPYARD" ∉ w.traits) :
    InitiateRequisitionProtocol waypoints =
      RequisitionOutcome.panicked "no shipyards found. Not yet handled." := by
  have hf : FindWaypointsByTrait waypoints "SHIPYARD" = [] := by
    unfold FindWaypointsByTrait
    rw [List.filter_eq_nil_iff]
    intro w hw
    simp only [List.any_eq_true, beq_iff_eq, not_exists, not_and]
    intro t ht hts
    exact h w hw (hts ▸ ht)
  unfold InitiateRequisitionProtocol
  rw [hf]
  rfl

/-- Witness for C8: a system whose only waypoint has just the MARKETPLACE
trait makes the protocol panic. -/
theorem C8_requisition_zero_shipyards_witness :
    InitiateRequisitionProtocol [⟨"W1", "PLANET", 0, 0, ["MARKETPLACE"]⟩] =
      RequisitionOutcome.panicked "no shipyards found. Not yet handled." :=
  C8_requisition_zero_shipyards _ (by decide)

/-- Auxiliary: one `Throttle.Wait` execution stamps a time at least
`timeToWait` after the previous stamp: either it sleeps exactly the missing
remainder (plus slack), or at least `timeToWait` had already elapsed. -/
theorem waitStamp_ge (r : Nat) (last : Rat) (e : WaitEnv)
    (hi : 0 ≤ e.idle) (hs : 0 ≤ e.slack) :
    last + timeToWait r ≤ waitStamp r last e := by
  unfold waitStamp
  split
  · linarith
  · rename_i h
    push_neg at h
    linarith

/-- Auxiliary: every stamp of a serialized `Wait` trace is at least
`timeToWait` after the trace's starting stamp. -/
theorem admissionTimes_all_ge (r : Nat) :
    ∀ (es : List WaitEnv) (last : Rat),
      (∀ e ∈ es, 0 ≤ e.idle ∧ 0 ≤ e.slack) →
      ∀ x ∈ admissionTimes r last es, last + timeToWait r ≤ x := by
  intro es
  induction es with
  | nil =>
    intro last _ x hx
    cases hx
  | cons e es ih =>
    intro last hes x hx
    have he := hes e (List.mem_cons_self e es)
    rcases List.mem_cons.mp hx with rfl | hx
    · exact waitStamp_ge r last e he.1 he.2
    · have h1 := waitStamp_ge r last e he.1 he.2
      have h2 := ih (waitStamp r last e)
        (fun e' he' => hes e' (List.mem_cons_of_mem e he')) x hx
      have hd : 0 ≤ timeToWait r := by
        unfold timeToWait
        positivity
      linarith

/-- Auxiliary: the stamps of a serialized `Wait` trace are pairwise
separated by at least `timeToWait`. -/
theorem admissionTimes_pairwise (r : Nat) :
    ∀ (es : List WaitEnv) (t0 : Rat),
      (∀ e ∈ es, 0 ≤ e.idle ∧ 0 ≤ e.slack) →
      List.Pairwise (fun a b => a + timeToWait r ≤ b) (admissionTimes r t0 es) := by
  intro es
  induction es with
  | nil =>
    intro t0 _
    exact List.Pairwise.nil
  | cons e es ih =>
    intro t0 hes
    rw [admissionTimes]
    refine List.Pairwise.cons ?_
      (ih (waitStamp r t0 e) (fun e' he' => hes e' (List.mem_cons_of_mem e he')))
    intro x hx
    exact admissionTimes_all_ge r es (waitStamp r t0 e)
      (fun e' he' => hes e' (List.mem_cons_of_mem e he')) x hx

/-- Claim C5 (confirmed): for a throttle configured with `r` requests per
second, the admission stamps of any serialized sequence of `Wait`
executions — the mutex serializes the bodies of all concurrent callers, and
clock monotonicity makes each caller's idle time nonnegative — are pairwise
separated by at least `timeToWait r` (that is, `1/r` seconds in
nanoseconds): no call is admitted early. -/
theorem C5_throttle_minimum_separation (r : Nat) (t0 : Rat) (es : List WaitEnv)
    (hr : 1 ≤ r) (hes : ∀ e ∈ es, 0 ≤ e.idle ∧ 0 ≤ e.slack) :
    List.Pairwise (fun a b => a + timeToWait r ≤ b) (admissionTimes r t0 es) :=
  admissionTimes_pairwise r es t0 hes

/-- Witness for C5: two back-to-back callers with no idle time and no
scheduling slack on the repository's configuration of 2 requests/second. -/
theorem C5_throttle_minimum_separation_witness :
    List.Pairwise (fun a b => a + timeToWait 2 ≤ b)
      (admissionTimes 2 0 [⟨0, 0⟩, ⟨0, 0⟩]) :=
  C5_throttle_minimum_separation 2 0 [⟨0, 0⟩, ⟨0, 0⟩] (by decide) (by decide)

/-- Auxiliary: the continuation time of `WaitUntilCooldown` is never before
the cooldown expiration. -/
theorem le_waitUntilCooldown (expiration now : Rat) :
    expiration ≤ WaitUntilCooldown expiration now := by
  unfold WaitUntilCooldown
  split
  · rename_i h
    exact le_of_lt h
  · exact le_refl _

/-- Auxiliary: full specification of one `ExtractResources` run, by
induction on the supplied responses: the cargo invariant is preserved, the
loop reports cargo-full exactly when the final units equal capacity, every
extract call is issued at or after the cooldown expiration in force, and
the loop consumes responses until one of its two stopping conditions. -/
theorem extractRun_spec :
    ∀ (resps : List ExtractResult) (cargo : ShipCargo) (expiration now : Rat),
      cargo.units ≤ cargo.capacity →
      (∀ r ∈ resps, respCargoInvariant r = true) →
      (ExtractResources resps cargo expiration now).final.units ≤
        (ExtractResources resps cargo expiration now).final.capacity ∧
      ((ExtractResources resps cargo expiration now).outcome =
          some ExtractExit.cargoFull ↔
        (ExtractResources resps cargo expiration now).final.units =
          (ExtractResources resps cargo expiration now).final.capacity) ∧
      (∀ p ∈ (ExtractResources resps cargo expiration now).events, p.2 ≤ p.1) ∧
      ((ExtractResources resps cargo expiration now).outcome = none →
        (ExtractResources resps cargo expiration now).events.length =
          resps.length) := by
  intro resps
  induction resps with
  | nil =>
    intro cargo expiration now hc _
    rw [ExtractResources.eq_def]
    split
    · rename_i h
      refine ⟨hc, ⟨fun _ => le_antisymm hc h, fun _ => rfl⟩, ?_, ?_⟩
      · intro p hp
        cases hp
      · intro h2
        cases h2
    · rename_i h
      refine ⟨hc, ⟨?_, ?_⟩, ?_, ?_⟩
      · intro h2
        cases h2
      · intro h2
        exact absurd h2.ge h
      · intro p hp
        cases hp
      · intro _
        rfl
  | cons r rest ih =>
    intro cargo expiration now hc hr
    rw [ExtractResources.eq_def]
    split
    · rename_i h
      refine ⟨hc, ⟨fun _ => le_antisymm hc h, fun _ => rfl⟩, ?_, ?_⟩
      · intro p hp
        cases hp
      · intro h2
        cases h2
    · rename_i h
      cases r with
      | fail =>
        refine ⟨hc, ⟨?_, ?_⟩, ?_, ?_⟩
        · intro h2
          simp at h2
        · intro h2
          exact absurd h2.ge h
        · intro p hp
          rw [List.mem_singleton] at hp
          subst hp
          exact le_waitUntilCooldown expiration now
        · intro h2
          cases h2
      | ok c e =>
        have hcu : c.units ≤ c.capacity := by
          have := hr (ExtractResult.ok c e) (List.mem_cons_self _ _)
          simpa [respCargoInvariant] using this
        have ihx := ih c e (WaitUntilCooldown expiration now) hcu
          (fun r' hr' => hr r' (List.mem_cons_of_mem _ hr'))
        refine ⟨ihx.1, ihx.2.1, ?_, ?_⟩
        · intro p hp
          rcases List.mem_cons.mp hp with rfl | hp
          · exact le_waitUntilCooldown expiration now
          · exact ihx.2.2.1 p hp
        · intro h2
          simp only [List.length_cons]
          rw [ihx.2.2.2 h2]

/-- Claim C6 (confirmed): provided the extract responses respect the remote
side's cargo invariant, the extract loop never exceeds capacity, it exits
with the cargo-full report exactly when `cargo.units == capacity` (and
otherwise only on the first failed call, whose response consumption stops
there), and every extract call is issued at or after the cooldown
expiration in force — no extraction is attempted while `now <
expiration`. -/
theorem C6_extract_loop (resps : List ExtractResult) (cargo : ShipCargo)
    (expiration now : Rat) (hc : cargo.units ≤ cargo.capacity)
    (hr : ∀ r ∈ resps, respCargoInvariant r = true) :
    (ExtractResources resps cargo expiration now).final.units ≤
      (ExtractResources resps cargo expiration now).final.capacity ∧
    ((ExtractResources resps cargo expiration now).outcome =
        some ExtractExit.cargoFull ↔
      (ExtractResources resps cargo expiration now).final.units =
        (ExtractResources resps cargo expiration now).final.capacity) ∧
    (∀ p ∈ (ExtractResources resps cargo expiration now).events, p.2 ≤ p.1) ∧
    ((ExtractResources resps cargo expiration now).outcome = none →
      (ExtractResources resps cargo expiration now).events.length =
        resps.length) :=
  extractRun_spec resps cargo expiration now hc hr

/-- Witness for C6: one successful extract fills a 10-capacity hold from 0
to 10 under a cooldown expiring at 3; the capacity bound of the conclusion
holds on this run. -/
theorem C6_extract_loop_witness :
    (ExtractResources [ExtractResult.ok ⟨10, 10, []⟩ 5] ⟨10, 0, []⟩ 3 0).final.units ≤
      (ExtractResources [ExtractResult.ok ⟨10, 10, []⟩ 5] ⟨10, 0, []⟩ 3 0).final.capacity :=
  (C6_extract_loop [ExtractResult.ok ⟨10, 10, []⟩ 5] ⟨10, 0, []⟩ 3 0
    (by decide) (by decide)).1

/-- Auxiliary: a sell pass started from states with equal non-log
observables (cargo, credits, call count) and run with any two priority
lists ends in states with equal non-log observables: the two branches of
the membership test issue the same call and perform the same updates. -/
theorem sellPass_observable (ps1 ps2 : List String) (oracle : Nat → SellResult) :
    ∀ (goods : List ShipCargoItem) (st1 st2 : SellState),
      SellObservable st1 = SellObservable st2 →
      SellObservable (SellPass ps1 oracle goods st1) =
        SellObservable (SellPass ps2 oracle goods st2) := by
  intro goods
  induction goods with
  | nil =>
    intro st1 st2 h
    exact h
  | cons g rest ih =>
    intro st1 st2 h
    have h' := h
    simp only [SellObservable, Prod.mk.injEq] at h'
    obtain ⟨h1, h2, h3⟩ := h'
    simp only [SellPass, ← h3]
    cases hb1 : Contains ps1 g.symbol <;> cases hb2 : Contains ps2 g.symbol <;>
      simp only [Bool.false_eq_true, if_false, if_true] <;>
      cases ho : oracle st1.calls <;>
      first
        | (apply ih
           simp [SellObservable, h3])
        | simp [SellObservable, h1, h2, h3]

/-- Auxiliary: the sell loop's termination flag and non-log observables do
not depend on the priority list. -/
theorem sellCargo_observable (ps1 ps2 : List String) (oracle : Nat → SellResult) :
    ∀ (fuel : Nat) (st1 st2 : SellState), SellObservable st1 = SellObservable st2 →
      (SellCargo ps1 oracle fuel st1).2 = (SellCargo ps2 oracle fuel st2).2 ∧
      SellObservable (SellCargo ps1 oracle fuel st1).1 =
        SellObservable (SellCargo ps2 oracle fuel st2).1 := by
  intro fuel
  induction fuel with
  | zero =>
    intro st1 st2 h
    exact ⟨rfl, h⟩
  | succ n ih =>
    intro st1 st2 h
    have hcargo : st1.cargo = st2.cargo := by
      have := congrArg (fun t => t.1) h
      simpa [SellObservable] using this
    simp only [SellCargo]
    by_cases hu : 0 < st1.cargo.units
    · rw [if_pos hu, if_pos (hcargo ▸ hu), ← hcargo]
      exact ih _ _ (sellPass_observable ps1 ps2 oracle st1.cargo.inventory st1 st2 h)
    · rw [if_neg hu, if_neg (hcargo ▸ hu)]
      refine ⟨rfl, ?_⟩
      simpa [SellObservable] using h

/-- Claim C9 (confirmed): from any entry state, with any oracle and any
outer-iteration budget, running the sell loop with one priority list or any
other — in particular with or without a given good's symbol in it — reaches
the report-back identically and produces the same cargo, agent credits and
call count: membership in the priority list affects only the log. -/
theorem C9_priority_membership_only_logging (ps1 ps2 : List String)
    (oracle : Nat → SellResult) (fuel : Nat) (st : SellState) :
    (SellCargo ps1 oracle fuel st).2 = (SellCargo ps2 oracle fuel st).2 ∧
    SellObservable (SellCargo ps1 oracle fuel st).1 =
      SellObservable (SellCargo ps2 oracle fuel st).1 :=
  sellCargo_observable ps1 ps2 oracle fuel st st rfl

/-- Auxiliary: with the empty priority list a sell pass never emits the
priority-branch log line. -/
theorem sellPass_nil_no_priority_log (oracle : Nat → SellResult) :
    ∀ (goods : List ShipCargoItem) (st : SellState),
      (∀ sym, LogMsg.sellingPriority sym ∉ st.log) →
      ∀ sym, LogMsg.sellingPriority sym ∉ (SellPass [] oracle goods st).log := by
  intro goods
  induction goods with
  | nil =>
    intro st h
    exact h
  | cons g rest ih =>
    intro st h sym
    simp only [SellPass, Contains, List.any_nil, Bool.false_eq_true, if_false]
    cases ho : oracle st.calls with
    | fail =>
      simp only [List.mem_append]
      rintro (hm | hm)
      · exact h sym hm
      · simp at hm
    | ok cargo credits =>
      apply ih
      intro sym'
      simp only [List.mem_append]
      rintro (hm | hm)
      · exact h sym' hm
      · simp at hm

/-- Auxiliary: with the empty priority list the whole sell loop never emits
the priority-branch log line. -/
theorem sellCargo_nil_no_priority_log (oracle : Nat → SellResult) :
    ∀ (fuel : Nat) (st : SellState),
      (∀ sym, LogMsg.sellingPriority sym ∉ st.log) →
      ∀ sym, LogMsg.sellingPriority sym ∉ (SellCargo [] oracle fuel st).1.log := by
  intro fuel
  induction fuel with
  | zero =>
    intro st h
    exact h
  | succ n ih =>
    intro st h sym
    simp only [SellCargo]
    by_cases hu : 0 < st.cargo.units
    · rw [if_pos hu]
      exact ih _ (sellPass_nil_no_priority_log oracle st.cargo.inventory st h) sym
    · rw [if_neg hu]
      simp only [List.mem_append]
      rintro (hm | hm)
      · exact h sym hm
      · simp at hm

/-- Auxiliary: every reachable ShipBot still carries the empty priority
list: `NewShipBot` leaves the field at its zero value and no action's field
assignments touch it. -/
theorem reachable_priorities_empty (sb : ShipBot) (h : ReachableShipBot sb) :
    sb.priorities = [] := by
  induction h with
  | new nav fuel cargo credits cd => rfl
  | dock nav _ ih => exact ih
  | navigate nav fuel _ ih => exact ih
  | sellAction oracle fuel _ ih => exact ih
  | extractAction resps cd _ ih => exact ih
  | probeCooldown cd _ ih => exact ih

/-- Claim C10 (confirmed): every ShipBot the program ever holds has an empty
priority list, so in every `SellCargo` invocation the membership test
`lib.Contains(sb.priorities, good.Symbol)` is false for every good and the
priority branch is unreachable — no run from any entry state ever emits the
priority-branch log line.  (The list computed by `DeterminePriorities` at
startup is bound to a local, logged, and never installed in any ShipBot.) -/
theorem C10_priorities_never_populated (sb : ShipBot) (h : ReachableShipBot sb) :
    sb.priorities = [] ∧
    (∀ s : String, Contains sb.priorities s = false) ∧
    (∀ (oracle : Nat → SellResult) (fuel : Nat) (cargo : ShipCargo)
        (credits : Int) (sym : String),
      LogMsg.sellingPriority sym ∉
        (SellCargo sb.priorities oracle fuel ⟨cargo, credits, 0, []⟩).1.log) := by
  have hp := reachable_priorities_empty sb h
  refine ⟨hp, ?_, ?_⟩
  · intro s
    rw [hp]
    rfl
  · intro oracle fuel cargo credits sym
    rw [hp]
    exact sellCargo_nil_no_priority_log oracle fuel ⟨cargo, credits, 0, []⟩
      (by simp) sym

/-- Witness for C10: a freshly constructed ShipBot is reachable and its
priority list is empty. -/
theorem C10_priorities_never_populated_witness :
    (NewShipBot navAtA 100 sellBugCargo 0 0).priorities = [] :=
  (C10_priorities_never_populated _
    (ReachableShipBot.new navAtA 100 sellBugCargo 0 0)).1

end Gogarin
